import Mathlib

/-!
Shallow embedding of the per-participant EEG pipeline
(`pipeline/io.py` and `step_mne/participant.py`) and proofs about it.

Python values that flow through the duck-typed override machinery are
modelled by the inductive `PyVal`; Python `None` is `PyVal.none`, strings
are `PyVal.str`, lists are `PyVal.list`, dicts are `PyVal.dict` (ordered
key/value pairs, as Python dicts preserve insertion order).  Failing
`assert` statements are modelled by `Except.error` carrying the assertion
message.
-/

namespace HuNeuro

/-- A Python value, as used by the per-participant override machinery. -/
inductive PyVal where
  | none : PyVal
  | int (n : ℤ) : PyVal
  | str (s : String) : PyVal
  | list (xs : List PyVal) : PyVal
  | dict (kvs : List (String × PyVal)) : PyVal

/-- `isinstance(v, list)`. -/
def PyVal.isList : PyVal → Bool
  | .list _ => true
  | _ => false

/-- `v is None`. -/
def PyVal.isNone : PyVal → Bool
  | .none => true
  | _ => false

/-- `v == 'auto'`: equality with the string sentinel `'auto'`. -/
def PyVal.isAutoStr : PyVal → Bool
  | .str s => s = "auto"
  | _ => false

/-- `isinstance(v, dict)`. -/
def PyVal.isDict : PyVal → Bool
  | .dict _ => true
  | _ => false

/-- `isinstance(v, str)`. -/
def PyVal.isStr : PyVal → Bool
  | .str _ => true
  | _ => false

/-- `io.py`, `is_nested_list`: a value is a nested list iff it is a list
containing at least one list element; any non-list value gives `False`. -/
def is_nested_list (input : PyVal) : Bool :=
  match input with
  | .list xs => xs.any PyVal.isList
  | _ => false

/-- The in-place dict item assignment `participant_dict[id] = values`:
every entry whose key equals `k` gets value `v` (keys are unique in a
Python dict, so at most one entry changes). -/
def updateAssoc (kvs : List (String × PyVal)) (k : String) (v : PyVal) :
    List (String × PyVal) :=
  kvs.map fun kv => if kv.1 = k then (k, v) else kv

/-- The `for id, values in input.items()` loop of `check_participant_input`:
asserts that each key is a known participant id and stores its value into
the accumulator dict (initialised with `None` for every participant id). -/
def dictItemsLoop (participant_ids : List String) :
    List (String × PyVal) → List (String × PyVal) →
    Except String (List (String × PyVal))
  | acc, [] => .ok acc
  | acc, (k, v) :: rest =>
    if k ∈ participant_ids then
      dictItemsLoop participant_ids (updateAssoc acc k v) rest
    else
      .error ("Participant ID " ++ k ++ " is not in vhdr_files")

/-- `io.py`, `check_participant_input`: converts different inputs
(dict, nested list, anything else) into a per-participant list.
A dict is mapped over the participant ids (missing ids default to `None`);
a nested list must have the same length as `participant_ids`; every other
value — including a flat list — is broadcast via `[input] * len(ids)`. -/
def check_participant_input (input : PyVal) (participant_ids : List String) :
    Except String (List PyVal) :=
  match input with
  | PyVal.dict kvs =>
    let init := participant_ids.map fun id => (id, PyVal.none)
    match dictItemsLoop participant_ids init kvs with
    | .ok d => .ok (d.map Prod.snd)
    | .error e => .error e
  | PyVal.list xs =>
    if is_nested_list (PyVal.list xs) then
      if xs.length = participant_ids.length then .ok xs
      else .error "Input lists must have the same length"
    else .ok (List.replicate participant_ids.length (PyVal.list xs))
  | other => .ok (List.replicate participant_ids.length other)

/-! ### `step_mne/participant.py` -/

/-- The `veog_channels`/`heog_channels` argument: the string `'auto'` or an
explicit list of channel names. -/
inductive ChanSpec where
  | auto : ChanSpec
  | chans (l : List String) : ChanSpec
deriving DecidableEq

/-- The `to_df` argument: `True`, `False` or `'both'`. -/
inductive ToDf where
  | yes : ToDf
  | no : ToDf
  | both : ToDf
deriving DecidableEq

/-- The `components` argument: parallel lists of component names, window
bounds and channel regions of interest. -/
structure Components where
  name : List String
  tmin : List ℚ
  tmax : List ℚ
  roi : List (List String)
deriving DecidableEq

/-- The full argument record of `participant_pipeline`; `config = locals()`
(line 43) captures exactly these values.  Defaults are those of the Python
signature.  Floats are modelled as rationals. -/
structure Config where
  vhdr_file : String
  log_file : String
  ocular_correction : Option String := some "fastica"
  bad_channels : PyVal := PyVal.str "auto"
  skip_log_rows : Option (List ℕ) := Option.none
  skip_log_conditions : Option (List (String × List String)) := Option.none
  downsample_sfreq : Option ℚ := Option.none
  veog_channels : ChanSpec := ChanSpec.auto
  heog_channels : ChanSpec := ChanSpec.auto
  montage : String := "easycap-M1"
  highpass_freq : ℚ := 1/10
  lowpass_freq : ℚ := 30
  epochs_tmin : ℚ := -(1/2)
  epochs_tmax : ℚ := 3/2
  baseline : ℚ × ℚ := (-(1/5), 0)
  triggers : Option (List (String × ℚ)) := Option.none
  reject_peak_to_peak : ℚ := 200
  reject_flat : ℚ := 1
  components : Components := ⟨[], [], [], []⟩
  condition_cols : Option (List String) := Option.none
  clean_dir : Option String := Option.none
  epochs_dir : Option String := Option.none
  trials_dir : Option String := Option.none
  evokeds_dir : Option String := Option.none
  export_dir : Option String := Option.none
  to_df : ToDf := ToDf.yes

/-- The continuous recording: its list of bad-channel flags
(`raw.info['bads']`) plus an abstract payload standing for the signal
data, annotations and the rest of `raw.info`. -/
structure Raw where
  bads : List String
  payload : ℕ
deriving DecidableEq

/-- The external collaborators (MNE and the helper module, which is not
part of the two source files): abstract functions with the shapes the
pipeline calls them at.  Epoch/trial/evoked objects are opaque types
chosen by the environment. -/
structure Env where
  Epochs : Type
  LogDf : Type
  Trials : Type
  Evokeds : Type
  EvokedsDf : Type
  read_raw_brainvision : String → Raw
  resample : Raw → ℚ → Raw
  add_heog_veog : Raw → ChanSpec → ChanSpec → Raw
  apply_montage : Raw → String → Raw
  interpolate_bads : Raw → Raw
  set_eeg_reference : Raw → Raw
  isfile : String → Bool
  correct_besa : Raw → String → Raw
  correct_ica : Raw → String → Raw
  bandpass : Raw → ℚ → ℚ → Raw
  events_from_annotations : Raw → List (ℕ × ℤ) × List (String × ℤ)
  make_epochs : Raw → List (ℕ × ℤ) → List (String × ℤ) → ℚ → ℚ → ℚ × ℚ → Epochs
  crop : Epochs → ℚ → ℚ → Bool → Epochs
  read_log : String → Option (List ℕ) → Option (List (String × List String)) → LogDf
  set_metadata : Epochs → LogDf → String → Epochs
  get_bads : Epochs → ℚ → ℚ → List ℕ × List String
  compute_single_trials : Epochs → Components → List ℕ → Trials
  compute_evokeds : Epochs → Option (List String) → List ℕ → String → Evokeds × EvokedsDf

/-- The channel-name list used at line 68: a plain string is wrapped into
a one-element list (line 66–67), a list is used as is (its elements are
channel-name strings). -/
def pyChanList : PyVal → List String
  | PyVal.str s => [s]
  | PyVal.list xs => xs.filterMap fun v =>
      match v with
      | PyVal.str s => some s
      | _ => Option.none
  | _ => []

/-- Lines 64–69: if `bad_channels is not None and bad_channels != 'auto'`,
append the (listified) bad channels to `raw.info['bads']` and
interpolate; otherwise leave the recording untouched. -/
def interpolate_stage (env : Env) (bad_channels : PyVal) (raw : Raw) : Raw :=
  if !bad_channels.isNone && !bad_channels.isAutoStr then
    env.interpolate_bads { raw with bads := raw.bads ++ pyChanList bad_channels }
  else
    raw

/-- Python `int(...)` on a numeric value: truncation toward zero. -/
def pyInt (q : ℚ) : ℤ :=
  if 0 ≤ q then ⌊q⌋ else ⌈q⌉

/-- Lines 91–93: if an explicit `triggers` map is given, coerce each of
its values with `int` and use it as the `event_id`, replacing the
annotation-derived mapping; otherwise keep the annotation-derived one. -/
def resolve_event_id (default_event_id : List (String × ℤ))
    (triggers : Option (List (String × ℚ))) : List (String × ℤ) :=
  match triggers with
  | some t => t.map fun kv => (kv.1, pyInt kv.2)
  | Option.none => default_event_id

/-- `os.path.basename`: the suffix of the path after its last `/`. -/
def basename (p : List Char) : List Char :=
  (p.reverse.takeWhile fun c => c ≠ '/').reverse

/-- Python `s.split(sep)` for a one-character separator: splits at every
occurrence, keeping empty pieces; the result is never empty. -/
def pySplitChar (sep : Char) : List Char → List (List Char)
  | [] => [[]]
  | c :: rest =>
    if c = sep then [] :: pySplitChar sep rest
    else
      match pySplitChar sep rest with
      | [] => [[c]]
      | r :: rs => (c :: r) :: rs

/-- Line 46: `path.basename(vhdr_file).split('.')[0]`. -/
def participant_id_of (p : List Char) : List Char :=
  (pySplitChar '.' (basename p)).headD []

/-- `participant_id_of` on `String`s, as used by the pipeline. -/
def participantIdStr (p : String) : String :=
  String.mk (participant_id_of p.toList)

/-- The values the first part of a pass (lines 45–108) produces and the
restart decision consumes. -/
structure PassData (env : Env) where
  participant_id : String
  epochs : env.Epochs
  bad_ixs : List ℕ
  auto_channels : List String

/-- Lines 45–108 of `participant_pipeline`: everything from reading the
raw file up to `get_bads`, in source order.  Persistence calls
(`save_clean`, …) are pure sinks and do not contribute to the returned
values, so they are omitted. -/
def pipelineUpstream (env : Env) (cfg : Config) : PassData env :=
  let participant_id := participantIdStr cfg.vhdr_file
  let raw := env.read_raw_brainvision cfg.vhdr_file
  let raw :=
    match cfg.downsample_sfreq with
    | some f => env.resample raw f
    | Option.none => raw
  let raw := env.add_heog_veog raw cfg.heog_channels cfg.veog_channels
  let raw := env.apply_montage raw cfg.montage
  let raw := interpolate_stage env cfg.bad_channels raw
  let raw := env.set_eeg_reference raw
  let raw :=
    match cfg.ocular_correction with
    | some oc => if env.isfile oc then env.correct_besa raw oc else env.correct_ica raw oc
    | Option.none => raw
  let raw := env.bandpass raw cfg.highpass_freq cfg.lowpass_freq
  let ev := env.events_from_annotations raw
  let events := ev.1
  let event_id := resolve_event_id ev.2 cfg.triggers
  let epochs := env.make_epochs raw events event_id cfg.epochs_tmin cfg.epochs_tmax cfg.baseline
  let epochs := env.crop epochs cfg.epochs_tmin cfg.epochs_tmax false
  let logdf := env.read_log cfg.log_file cfg.skip_log_rows cfg.skip_log_conditions
  let epochs := env.set_metadata epochs logdf participant_id
  let bads := env.get_bads epochs cfg.reject_peak_to_peak cfg.reject_flat
  ⟨participant_id, epochs, bads.1, bads.2⟩

/-- Lines 119–142: compute single trials and evokeds and return
`(trials, evokeds, evokeds_df, config)`; `config` is the (possibly
updated) snapshot dict. -/
def pipelineDownstream (env : Env) (config : Config) (pd : PassData env) :
    env.Trials × env.Evokeds × env.EvokedsDf × Config :=
  let trials := env.compute_single_trials pd.epochs config.components pd.bad_ixs
  let evk := env.compute_evokeds pd.epochs config.condition_cols pd.bad_ixs pd.participant_id
  (trials, evk.1, evk.2, config)

/-- `participant_pipeline` (lines 13–142): run a pass; if `bad_channels`
is the `'auto'` sentinel and the detector flagged channels, set the
snapshot's bad-channel field to the detected list and re-run the whole
pipeline with it, returning that run's result; if the sentinel was given
but nothing was flagged, continue with the field set to `[]`. -/
def participant_pipeline (env : Env) (cfg : Config) :
    env.Trials × env.Evokeds × env.EvokedsDf × Config :=
  let pd := pipelineUpstream env cfg
  if hc : cfg.bad_channels.isAutoStr then
    if pd.auto_channels ≠ [] then
      participant_pipeline env
        { cfg with bad_channels := PyVal.list (pd.auto_channels.map PyVal.str) }
    else
      pipelineDownstream env { cfg with bad_channels := PyVal.list [] } pd
  else
    pipelineDownstream env cfg pd
termination_by (if cfg.bad_channels.isAutoStr then 1 else 0)
decreasing_by
  simp only [PyVal.isAutoStr] at hc ⊢
  simp [hc]

/-- The number of passes (invocations of `participant_pipeline`) a call
performs, following exactly the recursion structure of
`participant_pipeline`. -/
def participant_passes (env : Env) (cfg : Config) : ℕ :=
  let pd := pipelineUpstream env cfg
  if hc : cfg.bad_channels.isAutoStr then
    if pd.auto_channels ≠ [] then
      1 + participant_passes env
        { cfg with bad_channels := PyVal.list (pd.auto_channels.map PyVal.str) }
    else 1
  else 1
termination_by (if cfg.bad_channels.isAutoStr then 1 else 0)
decreasing_by
  simp only [PyVal.isAutoStr] at hc ⊢
  simp [hc]

/-! ### Epoch sample grid (modelled from the spec)

The sample-count behaviour of `mne.Epochs` and `epochs.crop` lives in the
MNE collaborator, which is not part of the two source files; it is
modelled here from the spec's §4.4/§8. -/

/-- Modelled from the spec: the epoch extractor windows the recording at
`[tmin, tmax]` around each event; the naive inclusive window holds
`round((tmax - tmin) * f) + 1` samples spaced `1/f` apart starting at
`tmin` (the `mne.Epochs` constructor is an external collaborator absent
from the sources). -/
def epochSamplesInclusive (tmin tmax f : ℚ) : List ℚ :=
  (List.range (round ((tmax - tmin) * f) + 1).toNat).map fun i : ℕ => tmin + (i : ℚ) / f

/-- Modelled from the spec: baseline correction subtracts a pre-event
reference-window mean from each epoch's amplitudes; the sample grid is
unchanged. -/
def baselineCorrectSamples (b : ℚ × ℚ) (samples : List ℚ) : List ℚ :=
  samples

/-- `epochs.crop(epochs_tmin, epochs_tmax, include_tmax=False)`
(line 100): crop to `[tmin, tmax)`, dropping the final sample (the one at
`tmax`) of the inclusive window. -/
def cropExcludeTmax (samples : List ℚ) : List ℚ :=
  samples.dropLast

/-- Lines 96–100: epoch creation, baseline correction, then the
boundary-exclusive crop, in source order. -/
def epochSampleTimes (tmin tmax f : ℚ) (b : ℚ × ℚ) : List ℚ :=
  cropExcludeTmax (baselineCorrectSamples b (epochSamplesInclusive tmin tmax f))

/-! ### Object identity of the configuration snapshot

`config = locals()` (line 43) binds `config` to a dict object; line 113
performs an in-place item assignment on that same object.  To talk about
mutation we model a heap of dict objects addressed by naturals. -/

/-- A heap of configuration dict objects, addressed by naturals. -/
structure Heap where
  objs : ℕ → Config

/-- Store `c` into the dict object at address `a`. -/
def Heap.writeObj (h : Heap) (a : ℕ) (c : Config) : Heap :=
  ⟨fun b => if b = a then c else h.objs b⟩

/-- Line 113, `config['bad_channels'] = auto_channels`: an in-place item
assignment on the dict at address `a` (the object `locals()` produced at
entry); no copy is made. -/
def restart_assign (h : Heap) (a : ℕ) (auto_channels : List String) : Heap :=
  h.writeObj a
    { h.objs a with bad_channels := PyVal.list (auto_channels.map PyVal.str) }

/-- Line 114, `participant_pipeline(**config)`: the configuration passed
to the retry call is the value of the very same dict object after the
assignment. -/
def retry_config (h : Heap) (a : ℕ) (auto_channels : List String) : Config :=
  (restart_assign h a auto_channels).objs a

/-! ### Concrete fixtures for witnesses -/

/-- A concrete collaborator environment to exercise the pipeline on
explicit inputs; its bad-data detector always flags channel `Cz`. -/
def envW : Env where
  Epochs := Raw
  LogDf := ℕ
  Trials := Raw
  Evokeds := Raw
  EvokedsDf := Raw
  read_raw_brainvision := fun _ => ⟨[], 0⟩
  resample := fun r _ => r
  add_heog_veog := fun r _ _ => r
  apply_montage := fun r _ => r
  interpolate_bads := fun r => { r with payload := r.payload + 1 }
  set_eeg_reference := fun r => r
  isfile := fun _ => false
  correct_besa := fun r _ => r
  correct_ica := fun r _ => r
  bandpass := fun r _ _ => r
  events_from_annotations := fun _ => ([(10, 1)], [("Stimulus/S  1", 1)])
  make_epochs := fun r _ _ _ _ _ => r
  crop := fun e _ _ _ => e
  read_log := fun _ _ _ => 0
  set_metadata := fun e _ _ => e
  get_bads := fun _ _ _ => ([], ["Cz"])
  compute_single_trials := fun e _ _ => e
  compute_evokeds := fun e _ _ _ => (e, e)

/-- The same environment with a detector that flags nothing. -/
def envW0 : Env :=
  { envW with get_bads := fun _ _ _ => ([], []) }

/-- A concrete invocation: only the two mandatory file arguments given,
everything else left at its Python default (`bad_channels='auto'`). -/
def cfgW : Config :=
  { vhdr_file := "data/sub/S01.vhdr", log_file := "data/log/S01.csv" }

/-- A concrete recording with one pre-existing bad-channel flag. -/
def rawW : Raw :=
  ⟨["P7"], 0⟩

/-- A heap whose every address holds the snapshot `cfgW`. -/
def hW : Heap :=
  ⟨fun _ => cfgW⟩

/-! ### Theorems -/

/-- C6: `is_nested_list` is false on the empty list, false on a list with
no list element, true on a list with at least one list element, and false
on every non-list value. -/
theorem nested_list_detection :
    is_nested_list (PyVal.list []) = false
    ∧ is_nested_list (PyVal.list [PyVal.int 1, PyVal.int 2, PyVal.int 3]) = false
    ∧ is_nested_list (PyVal.list [PyVal.list [PyVal.int 1], PyVal.list [PyVal.int 2]]) = true
    ∧ (∀ xs : List PyVal, (∀ x ∈ xs, x.isList = false) →
        is_nested_list (PyVal.list xs) = false)
    ∧ (∀ xs : List PyVal, (∃ x ∈ xs, x.isList = true) →
        is_nested_list (PyVal.list xs) = true)
    ∧ ∀ v : PyVal, v.isList = false → is_nested_list v = false := by
  refine ⟨by decide, by decide, by decide, ?_, ?_, ?_⟩
  · intro xs h
    simp only [is_nested_list, List.any_eq_false]
    intro x hx
    simp [h x hx]
  · intro xs h
    simp only [is_nested_list, List.any_eq_true]
    rcases h with ⟨x, hx, hl⟩
    exact ⟨x, hx, by simp [hl]⟩
  · intro v h
    cases v <;> simp_all [PyVal.isList, is_nested_list]

/-- Witness for C6 at concrete inputs. -/
theorem nested_list_detection_witness :
    (PyVal.str "x").isList = false ∧ is_nested_list (PyVal.str "x") = false :=
  ⟨by decide, nested_list_detection.2.2.2.2.2 (PyVal.str "x") (by decide)⟩

/-- C3 (amended): a scalar (non-list, non-dict) override is broadcast to
`N` copies; a flat (non-nested) list is broadcast the same way — the
result is `N` copies of the whole list, not the list unchanged; a nested
list of length `N` is what is returned unchanged. -/
theorem broadcast_scalar_and_flat_list :
    (∀ (v : PyVal) (ids : List String), v.isList = false → v.isDict = false →
        check_participant_input v ids = .ok (List.replicate ids.length v))
    ∧ (∀ (xs : List PyVal) (ids : List String),
        is_nested_list (PyVal.list xs) = false →
        check_participant_input (PyVal.list xs) ids =
          .ok (List.replicate ids.length (PyVal.list xs)))
    ∧ ∀ (xs : List PyVal) (ids : List String),
        is_nested_list (PyVal.list xs) = true → xs.length = ids.length →
        check_participant_input (PyVal.list xs) ids = .ok xs := by
  refine ⟨?_, ?_, ?_⟩
  · intro v ids h1 h2
    cases v <;> simp_all [check_participant_input, PyVal.isList, PyVal.isDict]
  · intro xs ids h
    simp [check_participant_input, h]
  · intro xs ids h hlen
    simp [check_participant_input, h, hlen]

/-- Counterexample for C3 as stated: a flat list override of length `N`
is not returned unchanged — it is broadcast into `N` copies of itself. -/
theorem broadcast_flat_list_cex :
    check_participant_input (PyVal.list [PyVal.int 1, PyVal.int 2]) ["a", "b"]
      ≠ .ok [PyVal.int 1, PyVal.int 2] := by
  simp [check_participant_input, is_nested_list, PyVal.isList]

/-- Witness for C3 (amended) at concrete inputs. -/
theorem broadcast_scalar_and_flat_list_witness :
    ((PyVal.int 7).isList = false ∧ (PyVal.int 7).isDict = false
      ∧ check_participant_input (PyVal.int 7) ["a", "b"]
          = .ok (List.replicate 2 (PyVal.int 7)))
    ∧ is_nested_list (PyVal.list [PyVal.int 1, PyVal.int 2]) = false
    ∧ check_participant_input (PyVal.list [PyVal.int 1, PyVal.int 2]) ["a", "b"]
        = .ok (List.replicate 2 (PyVal.list [PyVal.int 1, PyVal.int 2])) :=
  ⟨⟨by decide, by decide,
      broadcast_scalar_and_flat_list.1 (PyVal.int 7) ["a", "b"] (by decide) (by decide)⟩,
    by decide,
    broadcast_scalar_and_flat_list.2.1 [PyVal.int 1, PyVal.int 2] ["a", "b"] (by decide)⟩

/-- The items loop fails whenever some key of the dict is not a known
participant id. -/
theorem dictItemsLoop_error (ids : List String) :
    ∀ (kvs acc : List (String × PyVal)), (∃ kv ∈ kvs, kv.1 ∉ ids) →
      ∃ e, dictItemsLoop ids acc kvs = .error e := by
  intro kvs
  induction kvs with
  | nil =>
    intro acc h
    rcases h with ⟨kv, hm, _⟩
    cases hm
  | cons hd tl ih =>
    obtain ⟨k, v⟩ := hd
    intro acc h
    by_cases hk : k ∈ ids
    · rcases h with ⟨kv, hm, hbad⟩
      rcases List.mem_cons.mp hm with heq | hmem
      · exact absurd hk (by simpa [heq] using hbad)
      · rcases ih (updateAssoc acc k v) ⟨kv, hmem, hbad⟩ with ⟨e, he⟩
        exact ⟨e, by simp [dictItemsLoop, hk, he]⟩
    · exact ⟨"Participant ID " ++ k ++ " is not in vhdr_files",
        by simp [dictItemsLoop, hk]⟩

/-- When every key of the dict is a known participant id, the items loop
succeeds and is the fold of the item assignments over the accumulator. -/
theorem dictItemsLoop_ok (ids : List String) :
    ∀ (kvs acc : List (String × PyVal)), (∀ kv ∈ kvs, kv.1 ∈ ids) →
      dictItemsLoop ids acc kvs =
        .ok (kvs.foldl (fun a kv => updateAssoc a kv.1 kv.2) acc) := by
  intro kvs
  induction kvs with
  | nil =>
    intro acc _
    simp [dictItemsLoop]
  | cons hd tl ih =>
    obtain ⟨k, v⟩ := hd
    intro acc h
    have hk : k ∈ ids := h (k, v) (List.mem_cons_self _ _)
    have htl := ih (updateAssoc acc k v) fun kv hm => h kv (List.mem_cons_of_mem _ hm)
    simp [dictItemsLoop, hk, htl]

/-- The item-assignment fold leaves every entry whose key is hit by no
assignment untouched. -/
theorem foldUpd_getElem_of_not_mem (kvs : List (String × PyVal)) :
    ∀ (acc : List (String × PyVal)) (i : ℕ) (p : String × PyVal),
      acc[i]? = some p → p.1 ∉ kvs.map Prod.fst →
      (kvs.foldl (fun a kv => updateAssoc a kv.1 kv.2) acc)[i]? = some p := by
  induction kvs with
  | nil =>
    intro acc i p hp _
    simpa using hp
  | cons hd tl ih =>
    obtain ⟨k, v⟩ := hd
    intro acc i p hp hk
    have hne : p.1 ≠ k := by
      intro heq
      exact hk (by simp [heq])
    have hstep : (updateAssoc acc k v)[i]? = some p := by
      rw [updateAssoc, List.getElem?_map, hp]
      simp [hne]
    have htl : p.1 ∉ tl.map Prod.fst := fun hm => hk (by simp [hm])
    simpa using ih (updateAssoc acc k v) i p hstep htl

/-- The item-assignment fold preserves the accumulator's length. -/
theorem foldUpd_length (kvs : List (String × PyVal)) :
    ∀ acc : List (String × PyVal),
      (kvs.foldl (fun a kv => updateAssoc a kv.1 kv.2) acc).length = acc.length := by
  induction kvs with
  | nil =>
    intro acc
    simp
  | cons hd tl ih =>
    intro acc
    simpa [updateAssoc] using ih (updateAssoc acc hd.1 hd.2)

/-- C4: a nested list of the wrong length is rejected; a dict with an
unknown participant-id key is rejected; in a dict where every key is
known, a participant id missing from the dict gets the empty value
`None` at its position of the result. -/
theorem override_error_handling :
    (∀ (xs : List PyVal) (ids : List String),
        is_nested_list (PyVal.list xs) = true → xs.length ≠ ids.length →
        check_participant_input (PyVal.list xs) ids =
          .error ("Input lists must have the same length"))
    ∧ (∀ (kvs : List (String × PyVal)) (ids : List String),
        (∃ kv ∈ kvs, kv.1 ∉ ids) →
        ∃ e, check_participant_input (PyVal.dict kvs) ids = .error e)
    ∧ ∀ (kvs : List (String × PyVal)) (ids : List String) (i : ℕ) (id0 : String),
        (∀ kv ∈ kvs, kv.1 ∈ ids) → ids[i]? = some id0 →
        id0 ∉ kvs.map Prod.fst →
        ∃ res, check_participant_input (PyVal.dict kvs) ids = .ok res ∧
          res.length = ids.length ∧ res[i]? = some PyVal.none := by
  refine ⟨?_, ?_, ?_⟩
  · intro xs ids h hlen
    simp [check_participant_input, h, hlen]
  · intro kvs ids h
    rcases dictItemsLoop_error ids kvs (ids.map fun id => (id, PyVal.none)) h with ⟨e, he⟩
    exact ⟨e, by simp [check_participant_input, he]⟩
  · intro kvs ids i id0 hgood hid hmiss
    have hok := dictItemsLoop_ok ids kvs (ids.map fun id => (id, PyVal.none)) hgood
    have hinit : (ids.map fun id => (id, PyVal.none))[i]? = some (id0, PyVal.none) := by
      rw [List.getElem?_map, hid]
      rfl
    have hkeep := foldUpd_getElem_of_not_mem kvs
      (ids.map fun id => (id, PyVal.none)) i (id0, PyVal.none) hinit hmiss
    refine ⟨(kvs.foldl (fun a kv => updateAssoc a kv.1 kv.2)
        (ids.map fun id => (id, PyVal.none))).map Prod.snd,
      by simp [check_participant_input, hok], ?_, ?_⟩
    · simp [foldUpd_length]
    · rw [List.getElem?_map, hkeep]
      rfl

/-- Witness for C4 at concrete inputs. -/
theorem override_error_handling_witness :
    (check_participant_input (PyVal.list [PyVal.list [PyVal.int 1]]) ["a", "b"]
        = .error ("Input lists must have the same length"))
    ∧ (∃ e, check_participant_input (PyVal.dict [("z", PyVal.int 1)]) ["a"] = .error e)
    ∧ ∃ res, check_participant_input (PyVal.dict [("a", PyVal.int 5)]) ["a", "b"] = .ok res ∧
        res.length = (["a", "b"] : List String).length ∧ res[1]? = some PyVal.none :=
  ⟨override_error_handling.1 [PyVal.list [PyVal.int 1]] ["a", "b"] (by decide) (by decide),
    override_error_handling.2.1 [("z", PyVal.int 1)] ["a"]
      ⟨("z", PyVal.int 1), by simp, by simp⟩,
    override_error_handling.2.2 [("a", PyVal.int 5)] ["a", "b"] 1 "b"
      (by simp) (by decide) (by simp)⟩

/-- `split` never returns an empty list of pieces. -/
theorem pySplitChar_ne_nil (sep : Char) (s : List Char) :
    pySplitChar sep s ≠ [] := by
  induction s with
  | nil => simp [pySplitChar]
  | cons c rest ih =>
    by_cases h : c = sep
    · simp [pySplitChar, h]
    · rcases hr : pySplitChar sep rest with _ | ⟨r, rs⟩
      · exact absurd hr ih
      · simp [pySplitChar, h, hr]

/-- The first piece of `s.split(sep)` is the prefix of `s` before the
first occurrence of `sep`. -/
theorem pySplitChar_headD (sep : Char) (s : List Char) :
    (pySplitChar sep s).headD [] = s.takeWhile fun c => c ≠ sep := by
  induction s with
  | nil => simp [pySplitChar]
  | cons c rest ih =>
    by_cases h : c = sep
    · simp [pySplitChar, h]
    · rcases hr : pySplitChar sep rest with _ | ⟨r, rs⟩
      · exact absurd hr (pySplitChar_ne_nil sep rest)
      · rw [hr] at ih
        simp only [pySplitChar, h, if_false, hr, List.headD_cons,
          List.takeWhile_cons] at ih ⊢
        simp [h, ih]

/-- C7: the participant identifier is the recording file's base name
truncated before its first `.`; the pipeline's first pass derives exactly
this identifier, and `.../S01.vhdr` yields `S01`. -/
theorem participant_id_from_filename :
    (∀ p : List Char, participant_id_of p = (basename p).takeWhile fun c => c ≠ '.')
    ∧ (∀ (env : Env) (cfg : Config),
        (pipelineUpstream env cfg).participant_id =
          String.mk ((basename cfg.vhdr_file.toList).takeWhile fun c => c ≠ '.'))
    ∧ participantIdStr ("data/sub/S01.vhdr") = "S01" := by
  have h1 : ∀ p : List Char,
      participant_id_of p = (basename p).takeWhile fun c => c ≠ '.' :=
    fun p => pySplitChar_headD '.' (basename p)
  refine ⟨h1, ?_, by decide⟩
  intro env cfg
  have h2 : (pipelineUpstream env cfg).participant_id = participantIdStr cfg.vhdr_file := rfl
  rw [h2, participantIdStr, h1]

/-- C9: an explicit trigger map fully replaces the annotation-derived
event codes, with every value coerced to an integer; with no map the
annotation-derived codes are kept. -/
theorem trigger_map_replaces_default :
    (∀ (d : List (String × ℤ)) (t : List (String × ℚ)),
        resolve_event_id d (some t) = t.map fun kv => (kv.1, pyInt kv.2))
    ∧ (∀ (d d2 : List (String × ℤ)) (t : List (String × ℚ)),
        resolve_event_id d (some t) = resolve_event_id d2 (some t))
    ∧ ∀ d : List (String × ℤ), resolve_event_id d Option.none = d := by
  exact ⟨fun d t => rfl, fun d d2 t => rfl, fun d => rfl⟩

/-- C10: a single channel-name string (other than the sentinel) behaves
exactly like the one-element list containing it: the name is appended to
the recording's bad-channel flags and the channels are interpolated. -/
theorem string_bad_channel_like_singleton (env : Env) (raw : Raw) (s : String)
    (h : s ≠ "auto") :
    interpolate_stage env (PyVal.str s) raw
        = interpolate_stage env (PyVal.list [PyVal.str s]) raw
    ∧ interpolate_stage env (PyVal.str s) raw
        = env.interpolate_bads { raw with bads := raw.bads ++ [s] } := by
  have hs : (PyVal.str s).isAutoStr = false := by
    simp [PyVal.isAutoStr, h]
  constructor <;>
    simp [interpolate_stage, PyVal.isNone, PyVal.isAutoStr, hs, pyChanList, h]

/-- Witness for C10 at concrete inputs. -/
theorem string_bad_channel_like_singleton_witness :
    ("Cz" ≠ "auto")
    ∧ interpolate_stage envW (PyVal.str "Cz") rawW
        = interpolate_stage envW (PyVal.list [PyVal.str "Cz"]) rawW
    ∧ interpolate_stage envW (PyVal.str "Cz") rawW
        = envW.interpolate_bads { rawW with bads := rawW.bads ++ ["Cz"] } :=
  ⟨by decide, (string_bad_channel_like_singleton envW rawW "Cz" (by decide)).1,
    (string_bad_channel_like_singleton envW rawW "Cz" (by decide)).2⟩

/-- C5: the cropped epoch holds `round((tmax - tmin) * f)` samples — one
fewer than the naive inclusive window — with the crop applied after
epoch creation and baseline correction. -/
theorem epoch_crop_sample_count (tmin tmax f : ℚ) (b : ℚ × ℚ)
    (hle : tmin ≤ tmax) (hf : 0 < f) :
    ((epochSampleTimes tmin tmax f b).length : ℤ) = round ((tmax - tmin) * f)
    ∧ (epochSampleTimes tmin tmax f b).length + 1
        = (epochSamplesInclusive tmin tmax f).length := by
  have h0 : (0 : ℚ) ≤ (tmax - tmin) * f := mul_nonneg (by linarith) (le_of_lt hf)
  have hr : 0 ≤ round ((tmax - tmin) * f) := by
    rw [round_eq]
    exact Int.floor_nonneg.mpr (by linarith)
  have hlen0 : (epochSamplesInclusive tmin tmax f).length
      = (round ((tmax - tmin) * f) + 1).toNat := by
    unfold epochSamplesInclusive
    rw [List.length_map, List.length_range]
  have hlen1 : (epochSampleTimes tmin tmax f b).length
      = (epochSamplesInclusive tmin tmax f).length - 1 := by
    simp [epochSampleTimes, cropExcludeTmax, baselineCorrectSamples]
  constructor
  · rw [hlen1, hlen0]
    omega
  · rw [hlen1, hlen0]
    omega

/-- Witness for C5 at the default window and a 250 Hz sampling rate. -/
theorem epoch_crop_sample_count_witness :
    ((-(1/2) : ℚ) ≤ (3/2 : ℚ) ∧ (0 : ℚ) < (250 : ℚ))
    ∧ ((epochSampleTimes (-(1/2) : ℚ) (3/2 : ℚ) (250 : ℚ) ((-(1/5), 0) : ℚ × ℚ)).length : ℤ)
        = round (((3/2 : ℚ) - (-(1/2) : ℚ)) * (250 : ℚ))
    ∧ (epochSampleTimes (-(1/2) : ℚ) (3/2 : ℚ) (250 : ℚ) ((-(1/5), 0) : ℚ × ℚ)).length + 1
        = (epochSamplesInclusive (-(1/2) : ℚ) (3/2 : ℚ) (250 : ℚ)).length :=
  ⟨⟨by norm_num, by norm_num⟩,
    (epoch_crop_sample_count (-(1/2) : ℚ) (3/2 : ℚ) (250 : ℚ) ((-(1/5), 0) : ℚ × ℚ)
      (by norm_num) (by norm_num)).1,
    (epoch_crop_sample_count (-(1/2) : ℚ) (3/2 : ℚ) (250 : ℚ) ((-(1/5), 0) : ℚ × ℚ)
      (by norm_num) (by norm_num)).2⟩

/-- A pass whose bad-channel spec is not the `'auto'` sentinel never
recurses: it is a single pass. -/
theorem passes_of_not_auto (env : Env) (cfg : Config)
    (h : cfg.bad_channels.isAutoStr = false) :
    participant_passes env cfg = 1 := by
  rw [participant_passes]
  simp [h]

/-- No invocation ever performs more than two passes. -/
theorem passes_le_two (env : Env) (cfg : Config) :
    participant_passes env cfg ≤ 2 := by
  by_cases hc : cfg.bad_channels.isAutoStr = true
  · rw [participant_passes]
    simp only [hc, dite_true]
    split
    · rw [passes_of_not_auto env _ (by simp [PyVal.isAutoStr])]
    · omega
  · rw [passes_of_not_auto env cfg (by simpa using hc)]
    omega

/-- C1: with the `'auto'` sentinel and a non-empty detector result, the
whole pipeline is re-invoked once with exactly the detected list, its
result is returned unchanged, the total is exactly two passes, the
second pass is a single pass, and no invocation ever exceeds two
passes. -/
theorem retry_runs_exactly_one_more_pass (env : Env) (cfg : Config) (l : List String)
    (hauto : cfg.bad_channels.isAutoStr = true)
    (hdet : (pipelineUpstream env cfg).auto_channels = l)
    (hne : l ≠ []) :
    participant_pipeline env cfg
        = participant_pipeline env
            { cfg with bad_channels := PyVal.list (l.map PyVal.str) }
    ∧ participant_passes env cfg = 2
    ∧ participant_passes env
        { cfg with bad_channels := PyVal.list (l.map PyVal.str) } = 1
    ∧ ∀ (env2 : Env) (cfg2 : Config), participant_passes env2 cfg2 ≤ 2 := by
  have hpass1 : participant_passes env
      { cfg with bad_channels := PyVal.list (l.map PyVal.str) } = 1 :=
    passes_of_not_auto env _ (by simp [PyVal.isAutoStr])
  refine ⟨?_, ?_, hpass1, fun env2 cfg2 => passes_le_two env2 cfg2⟩
  · conv_lhs => rw [participant_pipeline]
    simp [hauto, hdet, hne]
  · rw [participant_passes]
    simp [hauto, hdet, hne, hpass1]

/-- Witness for C1: a concrete environment whose detector flags `Cz`. -/
theorem retry_runs_exactly_one_more_pass_witness :
    (cfgW.bad_channels.isAutoStr = true
      ∧ (pipelineUpstream envW cfgW).auto_channels = ["Cz"]
      ∧ (["Cz"] : List String) ≠ [])
    ∧ participant_pipeline envW cfgW
        = participant_pipeline envW
            { cfgW with bad_channels := PyVal.list ((["Cz"] : List String).map PyVal.str) }
    ∧ participant_passes envW cfgW = 2
    ∧ participant_passes envW
        { cfgW with bad_channels := PyVal.list ((["Cz"] : List String).map PyVal.str) } = 1
    ∧ ∀ (env2 : Env) (cfg2 : Config), participant_passes env2 cfg2 ≤ 2 :=
  ⟨⟨by decide, by decide, by decide⟩,
    (retry_runs_exactly_one_more_pass envW cfgW ["Cz"] (by decide) (by decide) (by decide)).1,
    (retry_runs_exactly_one_more_pass envW cfgW ["Cz"] (by decide) (by decide) (by decide)).2.1,
    (retry_runs_exactly_one_more_pass envW cfgW ["Cz"] (by decide) (by decide) (by decide)).2.2.1,
    (retry_runs_exactly_one_more_pass envW cfgW ["Cz"] (by decide) (by decide) (by decide)).2.2.2⟩

/-- C8: with the `'auto'` sentinel and an empty detector result, the
pipeline proceeds in a single pass and the snapshot it returns carries
the explicit empty bad-channel list, not the sentinel. -/
theorem auto_empty_proceeds (env : Env) (cfg : Config)
    (hauto : cfg.bad_channels.isAutoStr = true)
    (hdet : (pipelineUpstream env cfg).auto_channels = []) :
    participant_passes env cfg = 1
    ∧ (participant_pipeline env cfg).2.2.2
        = { cfg with bad_channels := PyVal.list [] } := by
  constructor
  · rw [participant_passes]
    simp [hauto, hdet]
  · conv_lhs => rw [participant_pipeline]
    simp [hauto, hdet, pipelineDownstream]

/-- Witness for C8: a concrete environment whose detector flags
nothing. -/
theorem auto_empty_proceeds_witness :
    (cfgW.bad_channels.isAutoStr = true
      ∧ (pipelineUpstream envW0 cfgW).auto_channels = [])
    ∧ participant_passes envW0 cfgW = 1
    ∧ (participant_pipeline envW0 cfgW).2.2.2
        = { cfgW with bad_channels := PyVal.list [] } :=
  ⟨⟨by decide, by decide⟩,
    (auto_empty_proceeds envW0 cfgW (by decide) (by decide)).1,
    (auto_empty_proceeds envW0 cfgW (by decide) (by decide)).2⟩

/-- C2 (amended): line 113 mutates the snapshot dict in place — after the
assignment the object at the snapshot's address holds the entry value
with its bad-channel field replaced by the detected list; the retry
configuration is the value of that same object; other objects are
untouched; and when the entry value held the `'auto'` sentinel the
snapshot no longer equals its entry value. -/
theorem restart_assign_mutates_in_place (h : Heap) (a : ℕ) (l : List String) :
    (restart_assign h a l).objs a
        = { h.objs a with bad_channels := PyVal.list (l.map PyVal.str) }
    ∧ retry_config h a l = (restart_assign h a l).objs a
    ∧ (∀ b : ℕ, b ≠ a → (restart_assign h a l).objs b = h.objs b)
    ∧ ((h.objs a).bad_channels.isAutoStr = true →
        (restart_assign h a l).objs a ≠ h.objs a) := by
  refine ⟨by simp [restart_assign, Heap.writeObj], rfl, ?_, ?_⟩
  · intro b hb
    simp [restart_assign, Heap.writeObj, hb]
  · intro hauto heq
    have hb := congrArg Config.bad_channels heq
    simp only [restart_assign, Heap.writeObj, if_pos rfl] at hb
    rw [← hb] at hauto
    simp [PyVal.isAutoStr] at hauto

/-- Counterexample for C2 as stated: producing the retry configuration
does mutate the snapshot captured at entry. -/
theorem snapshot_unchanged_cex :
    (restart_assign hW 0 ["Cz"]).objs 0 ≠ hW.objs 0 := by
  intro heq
  have hb := congrArg Config.bad_channels heq
  simp [restart_assign, Heap.writeObj, hW, cfgW] at hb

/-- Witness for C2 (amended) at a concrete heap. -/
theorem restart_assign_mutates_in_place_witness :
    ((hW.objs 0).bad_channels.isAutoStr = true ∧ (1 : ℕ) ≠ 0)
    ∧ (restart_assign hW 0 ["Cz"]).objs 0
        = { hW.objs 0 with bad_channels := PyVal.list ((["Cz"] : List String).map PyVal.str) }
    ∧ retry_config hW 0 ["Cz"] = (restart_assign hW 0 ["Cz"]).objs 0
    ∧ (restart_assign hW 0 ["Cz"]).objs 1 = hW.objs 1
    ∧ (restart_assign hW 0 ["Cz"]).objs 0 ≠ hW.objs 0 :=
  ⟨⟨by decide, by decide⟩,
    (restart_assign_mutates_in_place hW 0 ["Cz"]).1,
    (restart_assign_mutates_in_place hW 0 ["Cz"]).2.1,
    (restart_assign_mutates_in_place hW 0 ["Cz"]).2.2.1 1 (by decide),
    (restart_assign_mutates_in_place hW 0 ["Cz"]).2.2.2 (by decide)⟩

end HuNeuro
